import Mathlib

/-!
Verification of the LM PayTrack pay-period earnings engine.

The definitions below are a shallow embedding of the JavaScript source:
  - src/lib/pay-periods.js   (getPayPeriod, formatDateForDB, getPayPeriodByOffset, toLocalDate)
  - src/server.js            (pay-period summary aggregation, invoice submission,
                              time-entry deletion)

A JS Date value is embedded as a civil calendar date (the value read through the
local-time accessors getFullYear / getMonth / getDate), together with a
minute-of-day where time-of-day matters.  JS numbers that participate only in
finite-decimal arithmetic are embedded as rationals; NaN produced by arithmetic
on undefined is embedded as Option.none.
-/

namespace PayTrack

/-- Civil calendar date: the local-time view of a JS Date.  The month is
1-based (JS getMonth returns month - 1; the code only ever feeds getMonth
straight back into the Date constructor, so the two offsets cancel and the
1-based view is faithful). -/
structure CivilDate where
  year : Int
  month : Nat
  day : Nat
  deriving DecidableEq, Repr

/-- Proleptic Gregorian leap-year rule used by the JS Date object. -/
def isLeapYear (y : Int) : Bool :=
  (y % 4 == 0 && y % 100 != 0) || y % 400 == 0

/-- Number of days in a month.  This is the embedding of the JS idiom
new Date(year, month + 1, 0).getDate() used at src/lib/pay-periods.js line 54
and src/server.js line 237: day 0 of the following month rolls back to the
last day of the given month. -/
def daysInMonth (y : Int) (m : Nat) : Nat :=
  match m with
  | 2 => if isLeapYear y then 29 else 28
  | 4 => 30
  | 6 => 30
  | 9 => 30
  | 11 => 30
  | _ => 31

/-- A real calendar date: month in 1..12 and day within the month. -/
abbrev CivilDate.Valid (d : CivilDate) : Prop :=
  1 ≤ d.month ∧ d.month ≤ 12 ∧ 1 ≤ d.day ∧ d.day ≤ daysInMonth d.year d.month

/-- Calendar order on civil dates (year, then month, then day). -/
abbrev CivilDate.le (a b : CivilDate) : Prop :=
  a.year < b.year ∨
    (a.year = b.year ∧ (a.month < b.month ∨ (a.month = b.month ∧ a.day ≤ b.day)))

/-- Pay period.  The JS object is { start, end }; end is a Lean keyword, so the
second field is named stop here. -/
structure Period where
  start : CivilDate
  stop : CivilDate
  deriving DecidableEq, Repr

/-- Embedding of the MakeFullYear step of the JS Date(year, month, day)
constructor: an integer year argument from 0 to 99 is interpreted as
1900 + year (new Date(42, 0, 1) is 1942-01-01).  The constructor calls that
build period bounds inside getPayPeriod go through this remap; the accessor
reads getFullYear / getMonth / getDate do not, and neither does setDate. -/
def makeFullYear (y : Int) : Int :=
  if 0 ≤ y ∧ y ≤ 99 then 1900 + y else y

theorem makeFullYear_eq (y : Int) (h : ¬ (0 ≤ y ∧ y ≤ 99)) : makeFullYear y = y := by
  unfold makeFullYear
  rw [if_neg h]

theorem makeFullYear_not_small (y : Int) :
    ¬ (0 ≤ makeFullYear y ∧ makeFullYear y ≤ 99) := by
  unfold makeFullYear
  split_ifs with h <;> omega

theorem makeFullYear_idem (y : Int) : makeFullYear (makeFullYear y) = makeFullYear y :=
  makeFullYear_eq (makeFullYear y) (makeFullYear_not_small y)

theorem makeFullYear_ge100 (y : Int) (h : 0 ≤ y) : 100 ≤ makeFullYear y := by
  unfold makeFullYear
  split_ifs with h2 <;> omega

/-- Embedding of getPayPeriod (src/lib/pay-periods.js lines 37-59 and
src/server.js lines 223-243) on an already-parsed date: day 1-15 maps to
the period [1st, 15th], day 16 and later to [16th, last day of month].
The period bounds are built with new Date(year, month, day), so the year
read from the input goes through the two-digit-year remap makeFullYear;
the month length new Date(year, month + 1, 0).getDate() is likewise the
length in the remapped year. -/
def getPayPeriod (d : CivilDate) : Period :=
  if d.day ≤ 15 then
    { start := ⟨makeFullYear d.year, d.month, 1⟩,
      stop := ⟨makeFullYear d.year, d.month, 15⟩ }
  else
    { start := ⟨makeFullYear d.year, d.month, 16⟩,
      stop := ⟨makeFullYear d.year, d.month,
        daysInMonth (makeFullYear d.year) d.month⟩ }

/-- Embedding of targetDate.setDate(targetDate.getDate() + 1): JS rolls an
out-of-range day over into the following month (and year). -/
def nextDay (d : CivilDate) : CivilDate :=
  if d.day < daysInMonth d.year d.month then ⟨d.year, d.month, d.day + 1⟩
  else if d.month < 12 then ⟨d.year, d.month + 1, 1⟩
  else ⟨d.year + 1, 1, 1⟩

/-- Embedding of targetDate.setDate(targetDate.getDate() - 1): day 0 rolls
back to the last day of the previous month (December of the previous year has
31 days). -/
def prevDay (d : CivilDate) : CivilDate :=
  if 1 < d.day then ⟨d.year, d.month, d.day - 1⟩
  else if 1 < d.month then ⟨d.year, d.month - 1, daysInMonth d.year (d.month - 1)⟩
  else ⟨d.year - 1, 12, 31⟩

/-- Linear index of the semi-monthly period containing a date: two periods per
month, counted from year 0.  Used to state that period navigation advances
exactly one period per step. -/
def periodIndex (d : CivilDate) : Int :=
  2 * (12 * d.year + ((d.month : Int) - 1)) + (if d.day ≤ 15 then 0 else 1)

/-- One forward step of the getPayPeriodByOffset loop: the day immediately
after the end of the period containing the current date. -/
def stepForward (d : CivilDate) : CivilDate :=
  nextDay (getPayPeriod d).stop

/-- One backward step of the getPayPeriodByOffset loop: the day immediately
before the start of the period containing the current date. -/
def stepBack (d : CivilDate) : CivilDate :=
  prevDay (getPayPeriod d).start

/-- Iterate a step function n times (the for-loop of getPayPeriodByOffset). -/
def stepN (f : CivilDate → CivilDate) : Nat → CivilDate → CivilDate
  | 0, d => d
  | n + 1, d => stepN f n (f d)

/-- Embedding of getPayPeriodByOffset (src/lib/pay-periods.js lines 87-104 and
src/server.js lines 249-269).  The JS function reads the reference date from
new Date() inside its body; the implicit current date is made an explicit
argument here, which is the only change the embedding makes. -/
def getPayPeriodByOffset (offset : Int) (today : CivilDate) : Period :=
  if offset < 0 then getPayPeriod (stepN stepBack offset.natAbs today)
  else getPayPeriod (stepN stepForward offset.natAbs today)

theorem daysInMonth_bounds (y : Int) (m : Nat) (h1 : 1 ≤ m) (h2 : m ≤ 12) :
    28 ≤ daysInMonth y m ∧ daysInMonth y m ≤ 31 := by
  interval_cases m <;> simp only [daysInMonth] <;> first
    | omega
    | (split <;> omega)

theorem daysInMonth_dec0 (y : Int) : daysInMonth y 12 = 31 := rfl

theorem getPayPeriod_low (y : Int) (m day : Nat) (h : day ≤ 15) :
    getPayPeriod ⟨y, m, day⟩ =
      ⟨⟨makeFullYear y, m, 1⟩, ⟨makeFullYear y, m, 15⟩⟩ := by
  unfold getPayPeriod
  rw [if_pos h]

theorem getPayPeriod_high (y : Int) (m day : Nat) (h : ¬ day ≤ 15) :
    getPayPeriod ⟨y, m, day⟩ =
      ⟨⟨makeFullYear y, m, 16⟩,
        ⟨makeFullYear y, m, daysInMonth (makeFullYear y) m⟩⟩ := by
  unfold getPayPeriod
  rw [if_neg h]

theorem getPayPeriod_low_id (y : Int) (m day : Nat) (h : day ≤ 15)
    (hy : ¬ (0 ≤ y ∧ y ≤ 99)) :
    getPayPeriod ⟨y, m, day⟩ = ⟨⟨y, m, 1⟩, ⟨y, m, 15⟩⟩ := by
  rw [getPayPeriod_low y m day h, makeFullYear_eq y hy]

theorem getPayPeriod_high_id (y : Int) (m day : Nat) (h : ¬ day ≤ 15)
    (hy : ¬ (0 ≤ y ∧ y ≤ 99)) :
    getPayPeriod ⟨y, m, day⟩ = ⟨⟨y, m, 16⟩, ⟨y, m, daysInMonth y m⟩⟩ := by
  rw [getPayPeriod_high y m day h, makeFullYear_eq y hy]

theorem nextDay_mid (y : Int) (m day : Nat) (h : day < daysInMonth y m) :
    nextDay ⟨y, m, day⟩ = ⟨y, m, day + 1⟩ := by
  unfold nextDay
  rw [if_pos h]

theorem nextDay_month (y : Int) (m day : Nat) (h : ¬ day < daysInMonth y m)
    (h2 : m < 12) : nextDay ⟨y, m, day⟩ = ⟨y, m + 1, 1⟩ := by
  unfold nextDay
  rw [if_neg h, if_pos h2]

theorem nextDay_year (y : Int) (m day : Nat) (h : ¬ day < daysInMonth y m)
    (h2 : ¬ m < 12) : nextDay ⟨y, m, day⟩ = ⟨y + 1, 1, 1⟩ := by
  unfold nextDay
  rw [if_neg h, if_neg h2]

theorem prevDay_mid (y : Int) (m day : Nat) (h : 1 < day) :
    prevDay ⟨y, m, day⟩ = ⟨y, m, day - 1⟩ := by
  unfold prevDay
  rw [if_pos h]

theorem prevDay_month (y : Int) (m day : Nat) (h : ¬ 1 < day) (h2 : 1 < m) :
    prevDay ⟨y, m, day⟩ = ⟨y, m - 1, daysInMonth y (m - 1)⟩ := by
  unfold prevDay
  rw [if_neg h, if_pos h2]

theorem prevDay_year (y : Int) (m day : Nat) (h : ¬ 1 < day) (h2 : ¬ 1 < m) :
    prevDay ⟨y, m, day⟩ = ⟨y - 1, 12, 31⟩ := by
  unfold prevDay
  rw [if_neg h, if_neg h2]

theorem nextDay_prevDay (d : CivilDate) (hv : d.Valid) : nextDay (prevDay d) = d := by
  obtain ⟨y, m, day⟩ := d
  obtain ⟨h1, h2, h3, h4⟩ := hv
  dsimp only at h1 h2 h3 h4
  by_cases hday : 1 < day
  · rw [prevDay_mid y m day hday, nextDay_mid y m (day - 1) (by omega)]
    simp only [CivilDate.mk.injEq, true_and, and_true]
    omega
  · by_cases hm : 1 < m
    · have hb := daysInMonth_bounds y (m - 1) (by omega) (by omega)
      rw [prevDay_month y m day hday hm,
        nextDay_month y (m - 1) (daysInMonth y (m - 1)) (by omega) (by omega)]
      simp only [CivilDate.mk.injEq, true_and, and_true]
      omega
    · rw [prevDay_year y m day hday hm,
        nextDay_year (y - 1) 12 31 (by rw [daysInMonth_dec0]; omega) (by omega)]
      simp only [CivilDate.mk.injEq, true_and, and_true]
      omega

theorem valid_mk (y : Int) (m day : Nat) (h1 : 1 ≤ m) (h2 : m ≤ 12) (h3 : 1 ≤ day)
    (h4 : day ≤ daysInMonth y m) : CivilDate.Valid ⟨y, m, day⟩ :=
  ⟨h1, h2, h3, h4⟩

theorem stepForward_spec (d : CivilDate) (hv : d.Valid)
    (hy : ¬ (0 ≤ d.year ∧ d.year ≤ 99)) :
    (stepForward d).Valid ∧ periodIndex (stepForward d) = periodIndex d + 1 ∧
      d.year ≤ (stepForward d).year := by
  obtain ⟨y, m, day⟩ := d
  obtain ⟨h1, h2, h3, h4⟩ := hv
  dsimp only at h1 h2 h3 h4 hy
  have hb := daysInMonth_bounds y m h1 h2
  unfold stepForward
  by_cases hd : day ≤ 15
  · rw [getPayPeriod_low_id y m day hd hy]
    dsimp only
    rw [nextDay_mid y m 15 (by omega)]
    refine ⟨valid_mk _ _ _ h1 h2 (by omega) (by omega), ?_, by dsimp only; omega⟩
    unfold periodIndex
    dsimp only
    split_ifs <;> omega
  · rw [getPayPeriod_high_id y m day hd hy]
    dsimp only
    by_cases hm : m < 12
    · rw [nextDay_month y m (daysInMonth y m) (by omega) hm]
      have hb2 := daysInMonth_bounds y (m + 1) (by omega) (by omega)
      refine ⟨valid_mk _ _ _ (by omega) (by omega) (by omega) (by omega), ?_,
        by dsimp only; omega⟩
      unfold periodIndex
      dsimp only
      split_ifs <;> omega
    · rw [nextDay_year y m (daysInMonth y m) (by omega) hm]
      have hb3 := daysInMonth_bounds (y + 1) 1 (by omega) (by omega)
      refine ⟨valid_mk _ _ _ (by omega) (by omega) (by omega) (by omega), ?_,
        by dsimp only; omega⟩
      have hm12 : m = 12 := by omega
      subst hm12
      unfold periodIndex
      dsimp only
      split_ifs <;> omega

theorem stepBack_spec (d : CivilDate) (hv : d.Valid)
    (hy : ¬ (0 ≤ d.year ∧ d.year ≤ 99)) :
    (stepBack d).Valid ∧ periodIndex (stepBack d) = periodIndex d - 1 := by
  obtain ⟨y, m, day⟩ := d
  obtain ⟨h1, h2, h3, h4⟩ := hv
  dsimp only at h1 h2 h3 h4 hy
  have hb := daysInMonth_bounds y m h1 h2
  unfold stepBack
  by_cases hd : day ≤ 15
  · rw [getPayPeriod_low_id y m day hd hy]
    dsimp only
    by_cases hm : 1 < m
    · have hb2 := daysInMonth_bounds y (m - 1) (by omega) (by omega)
      rw [prevDay_month y m 1 (by omega) hm]
      refine ⟨valid_mk _ _ _ (by omega) (by omega) (by omega) (by omega), ?_⟩
      unfold periodIndex
      dsimp only
      split_ifs <;> omega
    · rw [prevDay_year y m 1 (by omega) hm]
      refine ⟨valid_mk _ _ _ (by omega) (by omega) (by omega)
        (by rw [daysInMonth_dec0]), ?_⟩
      have hm1 : m = 1 := by omega
      subst hm1
      unfold periodIndex
      dsimp only
      split_ifs <;> omega
  · rw [getPayPeriod_high_id y m day hd hy]
    dsimp only
    rw [prevDay_mid y m 16 (by omega)]
    refine ⟨valid_mk _ _ _ h1 h2 (by omega) (by omega), ?_⟩
    unfold periodIndex
    dsimp only
    split_ifs <;> omega

theorem periodStart_spec (d : CivilDate) (hv : d.Valid)
    (hy : ¬ (0 ≤ d.year ∧ d.year ≤ 99)) :
    (getPayPeriod d).start.Valid ∧ periodIndex (getPayPeriod d).start = periodIndex d := by
  obtain ⟨y, m, day⟩ := d
  obtain ⟨h1, h2, h3, h4⟩ := hv
  dsimp only at h1 h2 h3 h4 hy
  have hb := daysInMonth_bounds y m h1 h2
  by_cases hd : day ≤ 15
  · rw [getPayPeriod_low_id y m day hd hy]
    dsimp only
    refine ⟨valid_mk _ _ _ h1 h2 (by omega) (by omega), ?_⟩
    unfold periodIndex
    dsimp only
    split_ifs <;> omega
  · rw [getPayPeriod_high_id y m day hd hy]
    dsimp only
    refine ⟨valid_mk _ _ _ h1 h2 (by omega) (by omega), ?_⟩
    unfold periodIndex
    dsimp only
    split_ifs <;> omega

theorem periodIndex_year_ge (d : CivilDate) (hv : d.Valid)
    (h : 2400 ≤ periodIndex d) : 100 ≤ d.year := by
  obtain ⟨y, m, day⟩ := d
  obtain ⟨h1, h2, h3, h4⟩ := hv
  dsimp only at h1 h2 h3 h4
  unfold periodIndex at h
  dsimp only at h
  split_ifs at h <;> dsimp only <;> omega

theorem periodIndex_ge2400 (d : CivilDate) (hv : d.Valid)
    (h : 100 ≤ d.year) : 2400 ≤ periodIndex d := by
  obtain ⟨y, m, day⟩ := d
  obtain ⟨h1, h2, h3, h4⟩ := hv
  dsimp only at h1 h2 h3 h4 h
  unfold periodIndex
  dsimp only
  split_ifs <;> omega

/-- Normalization of a valid date through its own period start: the start is
valid, lies in the remapped year (at least 100 when the input year is
non-negative), generates the same period again, and takes the same forward
step. -/
theorem getPayPeriod_start_fix (d : CivilDate) (hv : d.Valid) (hy : 0 ≤ d.year) :
    (getPayPeriod d).start.Valid ∧ 100 ≤ (getPayPeriod d).start.year ∧
      getPayPeriod (getPayPeriod d).start = getPayPeriod d ∧
      stepForward (getPayPeriod d).start = stepForward d := by
  obtain ⟨y, m, day⟩ := d
  obtain ⟨h1, h2, h3, h4⟩ := hv
  dsimp only at h1 h2 h3 h4 hy
  have hb := daysInMonth_bounds (makeFullYear y) m h1 h2
  have h100 := makeFullYear_ge100 y hy
  have hns := makeFullYear_not_small y
  by_cases hd : day ≤ 15
  · rw [getPayPeriod_low y m day hd]
    dsimp only
    have hsame : getPayPeriod ⟨makeFullYear y, m, 1⟩ =
        ⟨⟨makeFullYear y, m, 1⟩, ⟨makeFullYear y, m, 15⟩⟩ := by
      rw [getPayPeriod_low (makeFullYear y) m 1 (by omega), makeFullYear_idem]
    refine ⟨valid_mk _ _ _ h1 h2 (by omega) (by omega), h100, hsame, ?_⟩
    unfold stepForward
    rw [hsame, getPayPeriod_low y m day hd]
  · rw [getPayPeriod_high y m day hd]
    dsimp only
    have hsame : getPayPeriod ⟨makeFullYear y, m, 16⟩ =
        ⟨⟨makeFullYear y, m, 16⟩,
          ⟨makeFullYear y, m, daysInMonth (makeFullYear y) m⟩⟩ := by
      rw [getPayPeriod_high (makeFullYear y) m 16 (by omega), makeFullYear_idem]
    refine ⟨valid_mk _ _ _ h1 h2 (by omega) (by omega), h100, hsame, ?_⟩
    unfold stepForward
    rw [hsame, getPayPeriod_high y m day hd]

theorem getPayPeriod_eq_of_periodIndex (d e : CivilDate) (hd : d.Valid) (he : e.Valid)
    (h : periodIndex d = periodIndex e) : getPayPeriod d = getPayPeriod e := by
  obtain ⟨y1, m1, a1⟩ := d
  obtain ⟨y2, m2, a2⟩ := e
  obtain ⟨p1, p2, p3, p4⟩ := hd
  obtain ⟨q1, q2, q3, q4⟩ := he
  dsimp only at p1 p2 p3 p4 q1 q2 q3 q4
  unfold periodIndex at h
  dsimp only at h
  unfold getPayPeriod
  dsimp only
  split_ifs at h ⊢ with hA hB
  · have hy : y1 = y2 := by omega
    have hmm : m1 = m2 := by omega
    subst hy
    subst hmm
    rfl
  · exact (by omega : False).elim
  · exact (by omega : False).elim
  · have hy : y1 = y2 := by omega
    have hmm : m1 = m2 := by omega
    subst hy
    subst hmm
    rfl

theorem stepN_forward_spec (n : Nat) (d : CivilDate) (hv : d.Valid)
    (hy : 100 ≤ d.year) :
    (stepN stepForward n d).Valid ∧
      periodIndex (stepN stepForward n d) = periodIndex d + n ∧
      100 ≤ (stepN stepForward n d).year := by
  induction n generalizing d with
  | zero => exact ⟨hv, by simp [stepN], hy⟩
  | succ k ih =>
    have hs := stepForward_spec d hv (by omega)
    have ih2 := ih (stepForward d) hs.1 (by omega)
    refine ⟨ih2.1, ?_, ih2.2.2⟩
    rw [show stepN stepForward (k + 1) d = stepN stepForward k (stepForward d) from rfl]
    rw [ih2.2.1, hs.2.1]
    push_cast
    ring

theorem stepN_back_spec (n : Nat) (d : CivilDate) (hv : d.Valid)
    (hidx : 2400 + n ≤ periodIndex d) :
    (stepN stepBack n d).Valid ∧
      periodIndex (stepN stepBack n d) = periodIndex d - n := by
  induction n generalizing d with
  | zero => exact ⟨hv, by simp [stepN]⟩
  | succ k ih =>
    have hy100 : 100 ≤ d.year := periodIndex_year_ge d hv (by omega)
    have hs := stepBack_spec d hv (by omega)
    have ih2 := ih (stepBack d) hs.1 (by rw [hs.2]; omega)
    refine ⟨ih2.1, ?_⟩
    rw [show stepN stepBack (k + 1) d = stepN stepBack k (stepBack d) from rfl]
    rw [ih2.2, hs.2]
    push_cast
    ring

theorem byOffset_zero (d : CivilDate) : getPayPeriodByOffset 0 d = getPayPeriod d := by
  unfold getPayPeriodByOffset
  rw [if_neg (by omega : ¬ (0 : Int) < 0)]
  rfl

theorem byOffset_ofNat (n : Nat) (d : CivilDate) :
    getPayPeriodByOffset (n : Int) d = getPayPeriod (stepN stepForward n d) := by
  unfold getPayPeriodByOffset
  rw [if_neg (by omega : ¬ (n : Int) < 0)]
  rw [Int.natAbs_ofNat]

theorem byOffset_negOfNat (n : Nat) (d : CivilDate) :
    getPayPeriodByOffset (-(n : Int)) d = getPayPeriod (stepN stepBack n d) := by
  unfold getPayPeriodByOffset
  rcases Nat.eq_zero_or_pos n with h0 | hpos
  · subst h0
    rw [if_neg (by omega)]
    rfl
  · rw [if_pos (by omega)]
    rw [Int.natAbs_neg, Int.natAbs_ofNat]

theorem byOffset_succ_pos (n : Int) (hn : 0 < n) (d : CivilDate) :
    getPayPeriodByOffset n d = getPayPeriodByOffset (n - 1) (stepForward d) := by
  have h1 : n.natAbs = (n - 1).natAbs + 1 := by omega
  unfold getPayPeriodByOffset
  rw [if_neg (by omega), if_neg (by omega), h1]
  rfl

theorem byOffset_succ_neg (n : Int) (hn : n < 0) (d : CivilDate) :
    getPayPeriodByOffset n d = getPayPeriodByOffset (n + 1) (stepBack d) := by
  have h1 : n.natAbs = (n + 1).natAbs + 1 := by omega
  unfold getPayPeriodByOffset
  by_cases h2 : n + 1 < 0
  · rw [if_pos hn, if_pos h2, h1]
    rfl
  · rw [if_pos hn, if_neg h2, h1]
    have h3 : (n + 1).natAbs = 0 := by omega
    rw [h3]
    rfl

/-- C2 counterexample: 0042-01-20 is a real calendar date, but the period
bounds are built with new Date(42, 0, ...), whose two-digit-year remap lands
in 1942: the program returns [1942-01-16, 1942-01-31], so the period does
not lie in the month of the input and start ≤ d fails. -/
theorem periodContaining_counterexample :
    CivilDate.Valid ⟨42, 1, 20⟩ ∧
    getPayPeriod ⟨42, 1, 20⟩ = ⟨⟨1942, 1, 16⟩, ⟨1942, 1, 31⟩⟩ ∧
    ¬ CivilDate.le (getPayPeriod ⟨42, 1, 20⟩).start ⟨42, 1, 20⟩ :=
  ⟨by decide, by decide, by decide⟩

/-- C2 (amended): for every real calendar date d whose year is outside 0-99
(two-digit years are remapped to 1900+ by the JS Date constructor),
getPayPeriod returns the period [1st, 15th] of the month of d when the day
of month is at most 15, and otherwise [16th, last day], where the last day
is the actual leap-year-aware month length (between 28 and 31); in both
cases the period contains d, and in particular the periods of 2024-02-29
and 2023-02-28 end on those leap and non-leap February boundaries. -/
theorem periodContaining_correct (d : CivilDate) (hv : d.Valid)
    (hy : ¬ (0 ≤ d.year ∧ d.year ≤ 99)) :
    (d.day ≤ 15 →
      getPayPeriod d = ⟨⟨d.year, d.month, 1⟩, ⟨d.year, d.month, 15⟩⟩) ∧
    (¬ d.day ≤ 15 →
      getPayPeriod d =
        ⟨⟨d.year, d.month, 16⟩, ⟨d.year, d.month, daysInMonth d.year d.month⟩⟩) ∧
    28 ≤ daysInMonth d.year d.month ∧ daysInMonth d.year d.month ≤ 31 ∧
    CivilDate.le (getPayPeriod d).start d ∧ CivilDate.le d (getPayPeriod d).stop ∧
    getPayPeriod ⟨2024, 2, 29⟩ = ⟨⟨2024, 2, 16⟩, ⟨2024, 2, 29⟩⟩ ∧
    getPayPeriod ⟨2023, 2, 28⟩ = ⟨⟨2023, 2, 16⟩, ⟨2023, 2, 28⟩⟩ := by
  obtain ⟨y, m, day⟩ := d
  obtain ⟨h1, h2, h3, h4⟩ := hv
  dsimp only at h1 h2 h3 h4 hy
  have hb := daysInMonth_bounds y m h1 h2
  refine ⟨fun h => getPayPeriod_low_id y m day h hy,
    fun h => getPayPeriod_high_id y m day h hy,
    hb.1, hb.2, ?_, ?_, by decide, by decide⟩
  · by_cases hd : day ≤ 15
    · rw [getPayPeriod_low_id y m day hd hy]
      exact Or.inr ⟨rfl, Or.inr ⟨rfl, by dsimp only; omega⟩⟩
    · rw [getPayPeriod_high_id y m day hd hy]
      exact Or.inr ⟨rfl, Or.inr ⟨rfl, by dsimp only; omega⟩⟩
  · by_cases hd : day ≤ 15
    · rw [getPayPeriod_low_id y m day hd hy]
      exact Or.inr ⟨rfl, Or.inr ⟨rfl, by dsimp only; omega⟩⟩
    · rw [getPayPeriod_high_id y m day hd hy]
      exact Or.inr ⟨rfl, Or.inr ⟨rfl, by dsimp only; omega⟩⟩

theorem periodContaining_correct_witness :
    CivilDate.Valid ⟨2026, 4, 30⟩ ∧
      CivilDate.le (getPayPeriod ⟨2026, 4, 30⟩).start ⟨2026, 4, 30⟩ :=
  ⟨by decide,
    (periodContaining_correct ⟨2026, 4, 30⟩ (by decide) (by decide)).2.2.2.2.1⟩

/-- C4 counterexample: one backward step from 0100-01-10 lands on the date
0099-12-31, whose recomputed period goes through the two-digit-year remap
and teleports to [1999-12-16, 1999-12-31]: the walk does not advance exactly
one period on that step, neither at the period level (the reached period is
about 45600 periods away from the adjacent one) nor at the date level when
stepping from a year 0-99 date. -/
theorem periodByOffset_counterexample :
    CivilDate.Valid ⟨100, 1, 10⟩ ∧
    getPayPeriodByOffset (-1) ⟨100, 1, 10⟩ = ⟨⟨1999, 12, 16⟩, ⟨1999, 12, 31⟩⟩ ∧
    periodIndex ((getPayPeriodByOffset (-1) ⟨100, 1, 10⟩).start) ≠
      periodIndex ((getPayPeriodByOffset 0 ⟨100, 1, 10⟩).start) - 1 ∧
    CivilDate.Valid ⟨99, 12, 31⟩ ∧
    periodIndex (stepBack ⟨99, 12, 31⟩) ≠ periodIndex ⟨99, 12, 31⟩ - 1 :=
  ⟨by decide, by decide, by decide, by decide, by decide⟩

/-- C4 (amended): getPayPeriodByOffset with offset 0 returns the period
containing the reference date; a positive offset peels off one forward step
(to the day after the current period end) per unit, a negative offset one
backward step (to the day before the current period start) per unit, a
loop structure that holds for every date; and for a date whose year is
outside 0-99 (where the Date-constructor year remap is the identity) each
step moves to the immediately adjacent period: the linear period index
changes by exactly one, regardless of month length.  The JS function takes
no reference-date parameter; its reference date is always the current date
read inside the body, which the embedding passes explicitly. -/
theorem periodByOffset_correct (d : CivilDate) (n : Int) (hv : d.Valid)
    (hy : ¬ (0 ≤ d.year ∧ d.year ≤ 99)) :
    getPayPeriodByOffset 0 d = getPayPeriod d ∧
    (0 < n → getPayPeriodByOffset n d = getPayPeriodByOffset (n - 1) (stepForward d)) ∧
    (n < 0 → getPayPeriodByOffset n d = getPayPeriodByOffset (n + 1) (stepBack d)) ∧
    getPayPeriodByOffset n d =
      getPayPeriod
        (if n < 0 then stepN stepBack n.natAbs d else stepN stepForward n.natAbs d) ∧
    periodIndex (stepForward d) = periodIndex d + 1 ∧
    periodIndex (stepBack d) = periodIndex d - 1 := by
  refine ⟨byOffset_zero d, fun h => byOffset_succ_pos n h d,
    fun h => byOffset_succ_neg n h d, ?_,
    (stepForward_spec d hv hy).2.1, (stepBack_spec d hv hy).2⟩
  unfold getPayPeriodByOffset
  split_ifs <;> rfl

theorem periodByOffset_correct_witness :
    getPayPeriodByOffset 0 ⟨2026, 1, 20⟩ = getPayPeriod ⟨2026, 1, 20⟩ ∧
      periodIndex (stepForward ⟨2026, 1, 20⟩) = periodIndex ⟨2026, 1, 20⟩ + 1 :=
  ⟨(periodByOffset_correct ⟨2026, 1, 20⟩ 2 (by decide) (by decide)).1,
    (periodByOffset_correct ⟨2026, 1, 20⟩ 2 (by decide) (by decide)).2.2.2.2.1⟩

/-- C9 counterexample: starting from the real calendar date -0001-12-20,
one period forward crosses into year 0, whose recomputed period is remapped
to [1900-01-01, 1900-01-15] by the Date-constructor two-digit-year rule;
one period backward from that period start then lands in 1899, not back in
year -1: the round-trip law fails because only one leg of the walk goes
through the remap. -/
theorem periodNavigation_counterexample :
    CivilDate.Valid ⟨-1, 12, 20⟩ ∧
    getPayPeriod ⟨-1, 12, 20⟩ = ⟨⟨-1, 12, 16⟩, ⟨-1, 12, 31⟩⟩ ∧
    getPayPeriodByOffset ((1 : Nat) : Int) ⟨-1, 12, 20⟩ =
      ⟨⟨1900, 1, 1⟩, ⟨1900, 1, 15⟩⟩ ∧
    getPayPeriodByOffset (-((1 : Nat) : Int))
        ((getPayPeriodByOffset ((1 : Nat) : Int) ⟨-1, 12, 20⟩).start) =
      ⟨⟨1899, 12, 16⟩, ⟨1899, 12, 31⟩⟩ ∧
    (⟨⟨1899, 12, 16⟩, ⟨1899, 12, 31⟩⟩ : Period) ≠ ⟨⟨-1, 12, 16⟩, ⟨-1, 12, 31⟩⟩ :=
  ⟨by decide, by decide, by decide, by decide, by decide⟩

/-- C9 (amended): for every real calendar date d with non-negative year,
navigating n periods forward from the period containing d and then n
periods backward, restarting from the start date of the period reached,
returns the original period containing d.  (From a non-negative year the
first period computation lands in year at least 100 — possibly through the
two-digit-year remap — and both legs of the walk then stay in the
remap-free regime, so the law holds including for year 0-99 inputs.) -/
theorem periodNavigation_roundTrip (d : CivilDate) (n : Nat) (hv : d.Valid)
    (hy : 0 ≤ d.year) :
    getPayPeriodByOffset (-(n : Int)) ((getPayPeriodByOffset (n : Int) d).start) =
      getPayPeriod d := by
  obtain ⟨hsv, hs100, hsp, hsf⟩ := getPayPeriod_start_fix d hv hy
  rw [byOffset_ofNat]
  have hchain : getPayPeriod (stepN stepForward n d) =
      getPayPeriod (stepN stepForward n ((getPayPeriod d).start)) := by
    cases n with
    | zero => exact hsp.symm
    | succ k =>
      rw [show stepN stepForward (k + 1) d = stepN stepForward k (stepForward d)
          from rfl,
        show stepN stepForward (k + 1) ((getPayPeriod d).start) =
          stepN stepForward k (stepForward ((getPayPeriod d).start)) from rfl,
        hsf]
  rw [hchain]
  have hf := stepN_forward_spec n ((getPayPeriod d).start) hsv hs100
  have hst := periodStart_spec (stepN stepForward n ((getPayPeriod d).start)) hf.1
    (by omega)
  have hs2400 : 2400 ≤ periodIndex ((getPayPeriod d).start) :=
    periodIndex_ge2400 _ hsv hs100
  rw [byOffset_negOfNat]
  have hb := stepN_back_spec n _ hst.1 (by rw [hst.2, hf.2.1]; omega)
  have h1 : getPayPeriod (stepN stepBack n
      ((getPayPeriod (stepN stepForward n ((getPayPeriod d).start))).start)) =
      getPayPeriod ((getPayPeriod d).start) := by
    apply getPayPeriod_eq_of_periodIndex _ _ hb.1 hsv
    rw [hb.2, hst.2, hf.2.1]
    ring
  rw [h1, hsp]

theorem periodNavigation_roundTrip_witness :
    getPayPeriodByOffset (-((3 : Nat) : Int))
        ((getPayPeriodByOffset ((3 : Nat) : Int) ⟨2026, 2, 10⟩).start) =
      getPayPeriod ⟨2026, 2, 10⟩ :=
  periodNavigation_roundTrip ⟨2026, 2, 10⟩ 3 (by decide) (by decide)

/-- Numeric fields of a date-only string matching the toLocalDate regex
(four digit year, two digit month, two digit day). -/
structure DateStr where
  y : Nat
  m : Nat
  d : Nat
  deriving DecidableEq, Repr

/-- Civil date denoted by the string fields. -/
def DateStr.toCivil (s : DateStr) : CivilDate :=
  ⟨(s.y : Int), s.m, s.d⟩

/-- Condition under which the JS runtime parses the string as a valid Date:
fields in calendar range.  Out-of-range fields make new Date produce an
Invalid Date, detected by the isNaN(d.getTime()) guards in the source. -/
abbrev DateStr.Real (s : DateStr) : Prop :=
  1 ≤ s.m ∧ s.m ≤ 12 ∧ 1 ≤ s.d ∧ s.d ≤ daysInMonth (s.y : Int) s.m

/-- Canonical text of the string itself: zero-padded YYYY-MM-DD. -/
def DateStr.render (s : DateStr) : String :=
  (if s.y < 10 then "000" ++ toString s.y
   else if s.y < 100 then "00" ++ toString s.y
   else if s.y < 1000 then "0" ++ toString s.y
   else toString s.y) ++ "-" ++
  (if s.m < 10 then "0" ++ toString s.m else toString s.m) ++ "-" ++
  (if s.d < 10 then "0" ++ toString s.d else toString s.d)

/-- JS Date object as an absolute instant: its UTC civil date and UTC minute
of day.  The runtime timezone offset tz (minutes east of UTC, between -1440
and 1440 exclusive) converts between this representation and the local civil
view read by getFullYear / getMonth / getDate. -/
structure JsDate where
  utcDay : CivilDate
  utcMinute : Int
  deriving DecidableEq, Repr

/-- Embedding of toLocalDate (src/lib/pay-periods.js lines 23-28) on a
regex-matching date-only string: appending T00:00:00 (no Z) makes the runtime
parse the string as LOCAL midnight, whose UTC representation is the civil
date pushed back tz minutes (for tz > 0 local midnight falls on the previous
UTC day).  Returns none exactly when the runtime yields an Invalid Date. -/
def toLocalDate (tz : Int) (s : DateStr) : Option JsDate :=
  if s.Real then
    some (if 0 < tz then ⟨prevDay s.toCivil, 1440 - tz⟩ else ⟨s.toCivil, -tz⟩)
  else none

/-- Local civil date of an instant in runtime timezone tz: what the local
accessors getFullYear / getMonth / getDate return for the Date object. -/
def localCivil (tz : Int) (jd : JsDate) : CivilDate :=
  if jd.utcMinute + tz < 0 then prevDay jd.utcDay
  else if 1440 ≤ jd.utcMinute + tz then nextDay jd.utcDay
  else jd.utcDay

/-- Two-digit zero padding: String(n).padStart(2, "0") in the source. -/
def pad2 (n : Nat) : String :=
  if n < 10 then "0" ++ toString n else toString n

/-- Embedding of the formatting body of formatDateForDB
(src/lib/pay-periods.js lines 72-75) on a civil date: the year is printed by
template interpolation with no padding; month and day are padded to two
digits. -/
def formatCivil (c : CivilDate) : String :=
  toString c.year ++ "-" ++ pad2 c.month ++ "-" ++ pad2 c.day

/-- Embedding of formatDateForDB (src/lib/pay-periods.js lines 67-76) applied
to a Date object in runtime timezone tz: reads the LOCAL date fields. -/
def formatDateForDB (tz : Int) (jd : JsDate) : String :=
  formatCivil (localCivil tz jd)

/-- Embedding of getPayPeriod (src/lib/pay-periods.js lines 37-59) called on
a date-only string: toLocalDate, the isNaN Invalid-date guard, then the
period computation on the local date fields. -/
def getPayPeriodOfString (tz : Int) (s : DateStr) : Except String Period :=
  match toLocalDate tz s with
  | none => .error ("Invalid date: " ++ s.render)
  | some jd => .ok (getPayPeriod (localCivil tz jd))

/-- Embedding of formatDateForDB (src/lib/pay-periods.js lines 67-76) called
on a date-only string: toLocalDate, the isNaN Invalid-date guard, then local
formatting. -/
def formatDateForDBStr (tz : Int) (s : DateStr) : Except String String :=
  match toLocalDate tz s with
  | none => .error ("Invalid date: " ++ s.render)
  | some jd => .ok (formatDateForDB tz jd)

theorem real_toCivil_valid (s : DateStr) (hr : s.Real) : s.toCivil.Valid :=
  ⟨hr.1, hr.2.1, hr.2.2.1, hr.2.2.2⟩

theorem toLocalDate_real (tz : Int) (s : DateStr) (hr : s.Real) :
    toLocalDate tz s =
      some (if 0 < tz then ⟨prevDay s.toCivil, 1440 - tz⟩ else ⟨s.toCivil, -tz⟩) := by
  unfold toLocalDate
  rw [if_pos hr]

theorem localCivil_toLocalDate (tz : Int) (s : DateStr) (hr : s.Real)
    (jd : JsDate) (h : toLocalDate tz s = some jd) :
    localCivil tz jd = s.toCivil := by
  rw [toLocalDate_real tz s hr] at h
  injection h with h
  subst h
  by_cases h0 : 0 < tz
  · rw [if_pos h0]
    unfold localCivil
    dsimp only
    rw [if_neg (by omega), if_pos (by omega)]
    exact nextDay_prevDay s.toCivil (real_toCivil_valid s hr)
  · rw [if_neg h0]
    unfold localCivil
    dsimp only
    rw [if_neg (by omega), if_neg (by omega)]

theorem pad4_of_ge_1000 (n : Nat) (h : 1000 ≤ n) :
    (if n < 10 then "000" ++ toString n
     else if n < 100 then "00" ++ toString n
     else if n < 1000 then "0" ++ toString n
     else toString n) = toString n := by
  rw [if_neg (by omega), if_neg (by omega), if_neg (by omega)]

theorem toString_int_ofNat (n : Nat) : toString ((n : Nat) : Int) = toString n := rfl

theorem formatCivil_render (s : DateStr) (hy : 1000 ≤ s.y) :
    formatCivil s.toCivil = s.render := by
  unfold formatCivil DateStr.render DateStr.toCivil pad2
  dsimp only
  rw [toString_int_ofNat, pad4_of_ge_1000 s.y hy]

/-- C3 counterexample: the date-only string 0042-01-05 denotes a real
calendar date, but parsing it with toLocalDate and formatting the result
with formatDateForDB yields 42-01-05, not the original string: the year
field is printed without zero padding. -/
theorem dateRoundTrip_counterexample :
    DateStr.Real ⟨42, 1, 5⟩ ∧
    DateStr.render ⟨42, 1, 5⟩ = "0042-01-05" ∧
    formatDateForDBStr (-480) ⟨42, 1, 5⟩ = .ok "42-01-05" ∧
    "42-01-05" ≠ "0042-01-05" := by
  refine ⟨by decide, by decide, rfl, by decide⟩

/-- C3 (amended): for every runtime timezone offset, parsing a real
date-only string with toLocalDate (local midnight) and reading the result
back through the local accessors returns exactly the same civil day — the
round trip never shifts the value to an adjacent calendar day — and
formatDateForDB returns the identical string whenever the year is at least
1000 (a year below 1000 is printed without zero padding). -/
theorem dateRoundTrip_amended (tz : Int) (s : DateStr)
    (_htz : -1440 < tz ∧ tz < 1440) (hr : s.Real) :
    (toLocalDate tz s).isSome ∧
    Option.map (localCivil tz) (toLocalDate tz s) = some s.toCivil ∧
    (1000 ≤ s.y → formatDateForDBStr tz s = .ok s.render) := by
  have hjd := toLocalDate_real tz s hr
  have hloc := localCivil_toLocalDate tz s hr _ hjd
  refine ⟨by rw [hjd]; rfl, by rw [hjd]; exact congrArg some hloc, ?_⟩
  intro hy
  unfold formatDateForDBStr
  rw [hjd]
  dsimp only
  unfold formatDateForDB
  rw [hloc, formatCivil_render s hy]

theorem dateRoundTrip_amended_witness :
    (toLocalDate 120 ⟨2026, 3, 14⟩).isSome ∧
    Option.map (localCivil 120) (toLocalDate 120 ⟨2026, 3, 14⟩) =
      some (DateStr.toCivil ⟨2026, 3, 14⟩) ∧
    (1000 ≤ (⟨2026, 3, 14⟩ : DateStr).y →
      formatDateForDBStr 120 ⟨2026, 3, 14⟩ = .ok (DateStr.render ⟨2026, 3, 14⟩)) :=
  dateRoundTrip_amended 120 ⟨2026, 3, 14⟩ (by omega) (by decide)

/-- C7: called on a date-only string, getPayPeriod and formatDateForDB fail
with the Invalid date error exactly when the string fields do not form a
real calendar date (month outside 1..12 or day outside the leap-aware month
length), and on every real calendar date both return normally: the period of
that date and its formatted text respectively. -/
theorem invalidDate_errors (tz : Int) (s : DateStr) (_htz : -1440 < tz ∧ tz < 1440) :
    (¬ (1 ≤ s.m ∧ s.m ≤ 12 ∧ 1 ≤ s.d ∧ s.d ≤ daysInMonth (s.y : Int) s.m) →
      getPayPeriodOfString tz s = .error ("Invalid date: " ++ s.render) ∧
      formatDateForDBStr tz s = .error ("Invalid date: " ++ s.render)) ∧
    ((1 ≤ s.m ∧ s.m ≤ 12 ∧ 1 ≤ s.d ∧ s.d ≤ daysInMonth (s.y : Int) s.m) →
      getPayPeriodOfString tz s = .ok (getPayPeriod s.toCivil) ∧
      formatDateForDBStr tz s = .ok (formatCivil s.toCivil)) := by
  constructor
  · intro hne
    have hnone : toLocalDate tz s = none := by
      unfold toLocalDate
      rw [if_neg hne]
    unfold getPayPeriodOfString formatDateForDBStr
    rw [hnone]
    exact ⟨rfl, rfl⟩
  · intro hre
    have hjd := toLocalDate_real tz s hre
    have hloc := localCivil_toLocalDate tz s hre _ hjd
    unfold getPayPeriodOfString formatDateForDBStr
    rw [hjd]
    dsimp only
    unfold formatDateForDB
    rw [hloc]
    exact ⟨rfl, rfl⟩

theorem invalidDate_errors_witness :
    getPayPeriodOfString (-480) ⟨2024, 2, 30⟩ =
      .error ("Invalid date: " ++ DateStr.render ⟨2024, 2, 30⟩) ∧
    getPayPeriodOfString (-480) ⟨2024, 2, 29⟩ =
      .ok (getPayPeriod (DateStr.toCivil ⟨2024, 2, 29⟩)) :=
  ⟨((invalidDate_errors (-480) ⟨2024, 2, 30⟩ (by omega)).1 (by decide)).1,
   ((invalidDate_errors (-480) ⟨2024, 2, 29⟩ (by omega)).2 (by decide)).1⟩

/-- Client entry row as read by the aggregation loop (client_entries columns
amount_earned, tip_amount, tip_received_cash); a numeric field that is
missing or undefined is none. -/
structure ClientEntry where
  amount_earned : Option ℚ
  tip_amount : Option ℚ
  tip_received_cash : Bool
  deriving DecidableEq, Repr

/-- Product sale row as read by the aggregation loop (product_sales column
commission_amount). -/
structure ProductSale where
  commission_amount : Option ℚ
  deriving DecidableEq, Repr

/-- Time entry with its child rows, as consumed by the summary loop. -/
structure TimeEntry where
  hours : Option ℚ
  clients : List ClientEntry
  productSales : List ProductSale
  deriving DecidableEq, Repr

/-- Employee record fields used by the summary (employees.hourly_wage). -/
structure Employee where
  hourly_wage : Option ℚ
  deriving DecidableEq, Repr

/-- JS x || 0 applied to a possibly-undefined number: undefined (and 0)
become 0. -/
def orZero (x : Option ℚ) : ℚ :=
  x.getD 0

/-- JS addition where none stands for NaN or undefined: such an operand
poisons the result to NaN (none). -/
def jsAdd : Option ℚ → Option ℚ → Option ℚ
  | some a, some b => some (a + b)
  | _, _ => none

/-- JS multiplication with NaN propagation. -/
def jsMul : Option ℚ → Option ℚ → Option ℚ
  | some a, some b => some (a * b)
  | _, _ => none

/-- JS subtraction with NaN propagation. -/
def jsSub : Option ℚ → Option ℚ → Option ℚ
  | some a, some b => some (a - b)
  | _, _ => none

/-- Accumulators of the summary loop, src/server.js lines 513-517.  The
hours accumulator is the only one updated without a || 0 guard
(totalHours += entry.hours, line 520), so it alone can become NaN. -/
structure Acc where
  hours : Option ℚ
  comm : ℚ
  tips : ℚ
  cash : ℚ
  prodComm : ℚ
  deriving DecidableEq, Repr

/-- Body of the inner client loop, src/server.js lines 527-533. -/
def stepClient (a : Acc) (c : ClientEntry) : Acc :=
  { a with
    comm := a.comm + orZero c.amount_earned
    tips := a.tips + orZero c.tip_amount
    cash := if c.tip_received_cash then a.cash + orZero c.tip_amount else a.cash }

/-- Body of the inner product-sales loop, src/server.js lines 540-542. -/
def stepSale (a : Acc) (p : ProductSale) : Acc :=
  { a with prodComm := a.prodComm + orZero p.commission_amount }

/-- Body of the outer entry loop, src/server.js lines 519-543: add the raw
hours (unguarded), then fold the client entries, then the product sales. -/
def stepEntry (a : Acc) (e : TimeEntry) : Acc :=
  e.productSales.foldl stepSale
    (e.clients.foldl stepClient { a with hours := jsAdd a.hours e.hours })

/-- Summary object assembled at src/server.js lines 545-569. -/
structure Summary where
  totalHours : Option ℚ
  totalWages : Option ℚ
  totalCommissions : ℚ
  totalTips : ℚ
  totalCashTips : ℚ
  totalProductCommissions : ℚ
  totalPayable : Option ℚ
  hourlyWage : ℚ
  deriving DecidableEq, Repr

/-- Embedding of the pay-period summary computation of
GET /api/pay-period/:employeeId (src/server.js lines 513-569, identically
src/unnamed/part_001 lines 436-497): fold the entry loop from zero
accumulators, take hourlyWage = employee?.hourly_wage || 0, totalWages =
totalHours * hourlyWage, and totalPayable = totalWages + totalCommissions +
totalTips + totalProductCommissions - totalCashTips. -/
def summarize (employee : Option Employee) (entries : List TimeEntry) : Summary :=
  let a := entries.foldl stepEntry ⟨some 0, 0, 0, 0, 0⟩
  let hourlyWage := orZero (employee.bind Employee.hourly_wage)
  let totalWages := jsMul a.hours (some hourlyWage)
  { totalHours := a.hours
    totalWages := totalWages
    totalCommissions := a.comm
    totalTips := a.tips
    totalCashTips := a.cash
    totalProductCommissions := a.prodComm
    totalPayable :=
      jsSub (jsAdd (jsAdd (jsAdd totalWages (some a.comm)) (some a.tips))
        (some a.prodComm)) (some a.cash)
    hourlyWage := hourlyWage }

/-- Concatenation of the client entries of all time entries. -/
def allClients : List TimeEntry → List ClientEntry
  | [] => []
  | e :: rest => e.clients ++ allClients rest

/-- Concatenation of the product sales of all time entries. -/
def allSales : List TimeEntry → List ProductSale
  | [] => []
  | e :: rest => e.productSales ++ allSales rest

theorem allClients_nil : allClients [] = [] := rfl

theorem allClients_cons (e : TimeEntry) (t : List TimeEntry) :
    allClients (e :: t) = e.clients ++ allClients t := rfl

theorem allSales_nil : allSales [] = [] := rfl

theorem allSales_cons (e : TimeEntry) (t : List TimeEntry) :
    allSales (e :: t) = e.productSales ++ allSales t := rfl

/-- Sum of the hours fields (undefined read as zero, for stating totals). -/
def hoursSum (entries : List TimeEntry) : ℚ :=
  (entries.map (fun e => orZero e.hours)).sum

/-- Sum of amount_earned over all client entries. -/
def sumEarned (entries : List TimeEntry) : ℚ :=
  ((allClients entries).map (fun c => orZero c.amount_earned)).sum

/-- Sum of tip_amount over all client entries. -/
def sumTips (entries : List TimeEntry) : ℚ :=
  ((allClients entries).map (fun c => orZero c.tip_amount)).sum

/-- Sum of tip_amount over exactly the client entries with
tip_received_cash set. -/
def sumCashTips (entries : List TimeEntry) : ℚ :=
  (((allClients entries).filter (fun c => c.tip_received_cash)).map
    (fun c => orZero c.tip_amount)).sum

/-- Sum of commission_amount over all product sales. -/
def sumProdComm (entries : List TimeEntry) : ℚ :=
  ((allSales entries).map (fun p => orZero p.commission_amount)).sum

theorem clientsFold_hours (cs : List ClientEntry) (a : Acc) :
    (cs.foldl stepClient a).hours = a.hours := by
  induction cs generalizing a with
  | nil => rfl
  | cons c t ih =>
    rw [List.foldl_cons, ih]
    rfl

theorem clientsFold_prod (cs : List ClientEntry) (a : Acc) :
    (cs.foldl stepClient a).prodComm = a.prodComm := by
  induction cs generalizing a with
  | nil => rfl
  | cons c t ih =>
    rw [List.foldl_cons, ih]
    rfl

theorem clientsFold_comm (cs : List ClientEntry) (a : Acc) :
    (cs.foldl stepClient a).comm =
      a.comm + (cs.map (fun c => orZero c.amount_earned)).sum := by
  induction cs generalizing a with
  | nil => simp
  | cons c t ih =>
    rw [List.foldl_cons, ih, List.map_cons, List.sum_cons]
    unfold stepClient
    dsimp only
    ring

theorem clientsFold_tips (cs : List ClientEntry) (a : Acc) :
    (cs.foldl stepClient a).tips =
      a.tips + (cs.map (fun c => orZero c.tip_amount)).sum := by
  induction cs generalizing a with
  | nil => simp
  | cons c t ih =>
    rw [List.foldl_cons, ih, List.map_cons, List.sum_cons]
    unfold stepClient
    dsimp only
    ring

theorem clientsFold_cash (cs : List ClientEntry) (a : Acc) :
    (cs.foldl stepClient a).cash =
      a.cash + (cs.map
        (fun c => if c.tip_received_cash then orZero c.tip_amount else 0)).sum := by
  induction cs generalizing a with
  | nil => simp
  | cons c t ih =>
    rw [List.foldl_cons, ih, List.map_cons, List.sum_cons]
    unfold stepClient
    dsimp only
    by_cases hf : c.tip_received_cash
    · rw [if_pos hf, if_pos hf]
      ring
    · rw [if_neg hf, if_neg hf]
      ring

theorem salesFold_hours (ps : List ProductSale) (a : Acc) :
    (ps.foldl stepSale a).hours = a.hours := by
  induction ps generalizing a with
  | nil => rfl
  | cons p t ih =>
    rw [List.foldl_cons, ih]
    rfl

theorem salesFold_comm (ps : List ProductSale) (a : Acc) :
    (ps.foldl stepSale a).comm = a.comm := by
  induction ps generalizing a with
  | nil => rfl
  | cons p t ih =>
    rw [List.foldl_cons, ih]
    rfl

theorem salesFold_tips (ps : List ProductSale) (a : Acc) :
    (ps.foldl stepSale a).tips = a.tips := by
  induction ps generalizing a with
  | nil => rfl
  | cons p t ih =>
    rw [List.foldl_cons, ih]
    rfl

theorem salesFold_cash (ps : List ProductSale) (a : Acc) :
    (ps.foldl stepSale a).cash = a.cash := by
  induction ps generalizing a with
  | nil => rfl
  | cons p t ih =>
    rw [List.foldl_cons, ih]
    rfl

theorem salesFold_prod (ps : List ProductSale) (a : Acc) :
    (ps.foldl stepSale a).prodComm =
      a.prodComm + (ps.map (fun p => orZero p.commission_amount)).sum := by
  induction ps generalizing a with
  | nil => simp
  | cons p t ih =>
    rw [List.foldl_cons, ih, List.map_cons, List.sum_cons]
    unfold stepSale
    dsimp only
    ring

theorem stepEntry_hours (a : Acc) (e : TimeEntry) :
    (stepEntry a e).hours = jsAdd a.hours e.hours := by
  unfold stepEntry
  rw [salesFold_hours, clientsFold_hours]

theorem stepEntry_comm (a : Acc) (e : TimeEntry) :
    (stepEntry a e).comm =
      a.comm + (e.clients.map (fun c => orZero c.amount_earned)).sum := by
  unfold stepEntry
  rw [salesFold_comm, clientsFold_comm]

theorem stepEntry_tips (a : Acc) (e : TimeEntry) :
    (stepEntry a e).tips =
      a.tips + (e.clients.map (fun c => orZero c.tip_amount)).sum := by
  unfold stepEntry
  rw [salesFold_tips, clientsFold_tips]

theorem stepEntry_cash (a : Acc) (e : TimeEntry) :
    (stepEntry a e).cash =
      a.cash + (e.clients.map
        (fun c => if c.tip_received_cash then orZero c.tip_amount else 0)).sum := by
  unfold stepEntry
  rw [salesFold_cash, clientsFold_cash]

theorem stepEntry_prod (a : Acc) (e : TimeEntry) :
    (stepEntry a e).prodComm =
      a.prodComm + (e.productSales.map (fun p => orZero p.commission_amount)).sum := by
  unfold stepEntry
  rw [salesFold_prod, clientsFold_prod]

theorem entriesFold_hours (entries : List TimeEntry) (a : Acc)
    (hy : ∀ e ∈ entries, (e.hours).isSome) (q : ℚ) (ha : a.hours = some q) :
    (entries.foldl stepEntry a).hours = some (q + hoursSum entries) := by
  induction entries generalizing a q with
  | nil =>
    rw [List.foldl_nil, ha]
    exact congrArg some (by unfold hoursSum; simp)
  | cons e t ih =>
    obtain ⟨h, hh⟩ := Option.isSome_iff_exists.mp (hy e (by simp))
    have hstep : (stepEntry a e).hours = some (q + h) := by
      rw [stepEntry_hours, ha, hh]
      rfl
    rw [List.foldl_cons, ih _ (fun x hx => hy x (by simp [hx])) _ hstep]
    have hsum : hoursSum (e :: t) = h + hoursSum t := by
      unfold hoursSum
      rw [List.map_cons, List.sum_cons, hh]
      rfl
    rw [hsum]
    exact congrArg some (by ring)

theorem entriesFold_comm (entries : List TimeEntry) (a : Acc) :
    (entries.foldl stepEntry a).comm = a.comm + sumEarned entries := by
  induction entries generalizing a with
  | nil => unfold sumEarned; rw [allClients_nil]; simp
  | cons e t ih =>
    rw [List.foldl_cons, ih, stepEntry_comm]
    unfold sumEarned
    rw [allClients_cons, List.map_append, List.sum_append]
    ring

theorem entriesFold_tips (entries : List TimeEntry) (a : Acc) :
    (entries.foldl stepEntry a).tips = a.tips + sumTips entries := by
  induction entries generalizing a with
  | nil => unfold sumTips; rw [allClients_nil]; simp
  | cons e t ih =>
    rw [List.foldl_cons, ih, stepEntry_tips]
    unfold sumTips
    rw [allClients_cons, List.map_append, List.sum_append]
    ring

theorem sum_map_ite_eq_filter (p : ClientEntry → Bool) (f : ClientEntry → ℚ)
    (l : List ClientEntry) :
    (l.map (fun c => if p c then f c else 0)).sum = ((l.filter p).map f).sum := by
  induction l with
  | nil => rfl
  | cons c t ih =>
    by_cases h : p c
    · simp [List.filter_cons, h, ih]
    · simp [List.filter_cons, h, ih]

theorem entriesFold_cash (entries : List TimeEntry) (a : Acc) :
    (entries.foldl stepEntry a).cash = a.cash + sumCashTips entries := by
  induction entries generalizing a with
  | nil => unfold sumCashTips; rw [allClients_nil]; simp
  | cons e t ih =>
    rw [List.foldl_cons, ih, stepEntry_cash]
    unfold sumCashTips
    rw [allClients_cons, List.filter_append, List.map_append, List.sum_append,
      sum_map_ite_eq_filter (fun c => c.tip_received_cash) (fun c => orZero c.tip_amount)]
    ring

theorem entriesFold_prod (entries : List TimeEntry) (a : Acc) :
    (entries.foldl stepEntry a).prodComm = a.prodComm + sumProdComm entries := by
  induction entries generalizing a with
  | nil => unfold sumProdComm; rw [allSales_nil]; simp
  | cons e t ih =>
    rw [List.foldl_cons, ih, stepEntry_prod]
    unfold sumProdComm
    rw [allSales_cons, List.map_append, List.sum_append]
    ring

theorem summarize_eval (employee : Employee) (w : ℚ)
    (hw : employee.hourly_wage = some w) (entries : List TimeEntry)
    (hh : ∀ e ∈ entries, (e.hours).isSome) :
    summarize (some employee) entries =
      { totalHours := some (hoursSum entries)
        totalWages := some (hoursSum entries * w)
        totalCommissions := sumEarned entries
        totalTips := sumTips entries
        totalCashTips := sumCashTips entries
        totalProductCommissions := sumProdComm entries
        totalPayable := some (hoursSum entries * w + sumEarned entries +
          sumTips entries + sumProdComm entries - sumCashTips entries)
        hourlyWage := w } := by
  have hH := entriesFold_hours entries ⟨some 0, 0, 0, 0, 0⟩ hh 0 rfl
  rw [zero_add] at hH
  have hC := entriesFold_comm entries ⟨some 0, 0, 0, 0, 0⟩
  have hT := entriesFold_tips entries ⟨some 0, 0, 0, 0, 0⟩
  have hK := entriesFold_cash entries ⟨some 0, 0, 0, 0, 0⟩
  have hP := entriesFold_prod entries ⟨some 0, 0, 0, 0, 0⟩
  dsimp only at hC hT hK hP
  rw [zero_add] at hC hT hK hP
  unfold summarize
  dsimp only
  rw [hH, hC, hT, hK, hP]
  rw [show (some employee).bind Employee.hourly_wage = employee.hourly_wage from rfl, hw]
  rfl

/-- C1: for an employee with a present hourly wage and entries whose hours
are present, the computed summary satisfies totalHours = sum of hours,
totalWages = totalHours times the wage, totalCommissions = sum of
amount_earned over all client entries, totalTips = sum of tip_amount over
all client entries, totalCashTips = sum of tip_amount over exactly the
client entries with tip_received_cash, totalProductCommissions = sum of
commission_amount over all product sales, and totalPayable = totalWages +
totalCommissions + totalTips + totalProductCommissions - totalCashTips. -/
theorem summary_components (employee : Employee) (w : ℚ)
    (hw : employee.hourly_wage = some w) (entries : List TimeEntry)
    (hh : ∀ e ∈ entries, (e.hours).isSome) :
    (summarize (some employee) entries).totalHours = some (hoursSum entries) ∧
    (summarize (some employee) entries).totalWages = some (hoursSum entries * w) ∧
    (summarize (some employee) entries).totalCommissions = sumEarned entries ∧
    (summarize (some employee) entries).totalTips = sumTips entries ∧
    (summarize (some employee) entries).totalCashTips = sumCashTips entries ∧
    (summarize (some employee) entries).totalProductCommissions = sumProdComm entries ∧
    (summarize (some employee) entries).totalPayable =
      some (hoursSum entries * w + sumEarned entries + sumTips entries +
        sumProdComm entries - sumCashTips entries) := by
  rw [summarize_eval employee w hw entries hh]
  exact ⟨rfl, rfl, rfl, rfl, rfl, rfl, rfl⟩

theorem summary_components_witness :
    (summarize (some ⟨some 20⟩)
      [⟨some 8, [⟨some 50, some 20, true⟩], [⟨some 15⟩]⟩]).totalWages = some 160 ∧
    (summarize (some ⟨some 20⟩)
      [⟨some 8, [⟨some 50, some 20, true⟩], [⟨some 15⟩]⟩]).totalCashTips = 20 ∧
    (summarize (some ⟨some 20⟩)
      [⟨some 8, [⟨some 50, some 20, true⟩], [⟨some 15⟩]⟩]).totalPayable = some 225 := by
  have h := summary_components ⟨some 20⟩ 20 rfl
    [⟨some 8, [⟨some 50, some 20, true⟩], [⟨some 15⟩]⟩] (by decide)
  refine ⟨?_, ?_, ?_⟩
  · rw [h.2.1]
    norm_num [hoursSum, orZero]
  · rw [h.2.2.2.2.1]
    norm_num [sumCashTips, allClients, orZero, List.filter]
  · rw [h.2.2.2.2.2.2]
    norm_num [hoursSum, sumEarned, sumTips, sumProdComm, sumCashTips,
      allClients, allSales, orZero, List.filter]

/-- C6 counterexample: an entry whose hours field is undefined is NOT
treated as zero: the unguarded totalHours += entry.hours
(src/server.js line 520) poisons totalHours, totalWages and totalPayable to
NaN, a non-number.  The input is a single entry with undefined hours and no
child rows. -/
theorem missingHours_counterexample :
    (summarize (some ⟨some 20⟩) [⟨none, [], []⟩]).totalHours = none ∧
    (summarize (some ⟨some 20⟩) [⟨none, [], []⟩]).totalWages = none ∧
    (summarize (some ⟨some 20⟩) [⟨none, [], []⟩]).totalPayable = none :=
  ⟨rfl, rfl, rfl⟩

/-- C6 (amended): missing or undefined amount fields (amount_earned,
tip_amount, commission_amount, hourly_wage) are treated as zero by the
|| 0 guards, so the four amount totals are always well-defined numbers and
the computation never fails; the hours field has no such guard (it is NOT
NULL at the database layer), so the remaining totals are numbers exactly
when every entry has hours present. -/
theorem missingFields_amended (employee : Option Employee) (entries : List TimeEntry)
    (hh : ∀ e ∈ entries, (e.hours).isSome) :
    ((summarize employee entries).totalHours).isSome ∧
    ((summarize employee entries).totalWages).isSome ∧
    ((summarize employee entries).totalPayable).isSome ∧
    (summarize employee entries).totalCommissions = sumEarned entries ∧
    (summarize employee entries).totalTips = sumTips entries ∧
    (summarize employee entries).totalCashTips = sumCashTips entries ∧
    (summarize employee entries).totalProductCommissions = sumProdComm entries := by
  have hH := entriesFold_hours entries ⟨some 0, 0, 0, 0, 0⟩ hh 0 rfl
  have hC := entriesFold_comm entries ⟨some 0, 0, 0, 0, 0⟩
  have hT := entriesFold_tips entries ⟨some 0, 0, 0, 0, 0⟩
  have hK := entriesFold_cash entries ⟨some 0, 0, 0, 0, 0⟩
  have hP := entriesFold_prod entries ⟨some 0, 0, 0, 0, 0⟩
  dsimp only at hC hT hK hP
  rw [zero_add] at hC hT hK hP
  unfold summarize
  dsimp only
  rw [hH, hC, hT, hK, hP]
  exact ⟨rfl, rfl, rfl, rfl, rfl, rfl, rfl⟩

theorem missingFields_amended_witness :
    ((summarize (some ⟨none⟩)
      [⟨some 5, [⟨none, none, true⟩], [⟨none⟩]⟩]).totalPayable).isSome ∧
    (summarize (some ⟨none⟩)
      [⟨some 5, [⟨none, none, true⟩], [⟨none⟩]⟩]).totalCommissions =
        sumEarned [⟨some 5, [⟨none, none, true⟩], [⟨none⟩]⟩] :=
  ⟨(missingFields_amended (some ⟨none⟩)
      [⟨some 5, [⟨none, none, true⟩], [⟨none⟩]⟩] (by decide)).2.2.1,
   (missingFields_amended (some ⟨none⟩)
      [⟨some 5, [⟨none, none, true⟩], [⟨none⟩]⟩] (by decide)).2.2.2.1⟩

theorem filter_cash_sum_le (l : List ClientEntry)
    (hn : ∀ c ∈ l, 0 ≤ orZero c.tip_amount) :
    ((l.filter (fun c => c.tip_received_cash)).map
      (fun c => orZero c.tip_amount)).sum ≤
      (l.map (fun c => orZero c.tip_amount)).sum := by
  induction l with
  | nil => simp
  | cons c t ih =>
    have hc := hn c (by simp)
    have ih2 := ih (fun x hx => hn x (by simp [hx]))
    by_cases h : c.tip_received_cash
    · simp only [List.filter_cons, h, if_pos, List.map_cons, List.sum_cons]
      linarith
    · simp only [List.filter_cons, h, Bool.false_eq_true, if_false,
        List.map_cons, List.sum_cons]
      linarith

theorem mem_allClients (c : ClientEntry) (entries : List TimeEntry)
    (h : c ∈ allClients entries) : ∃ e ∈ entries, c ∈ e.clients := by
  induction entries with
  | nil =>
    rw [allClients_nil] at h
    exact absurd h (List.not_mem_nil c)
  | cons e t ih =>
    rw [allClients_cons] at h
    rcases List.mem_append.mp h with h1 | h2
    · exact ⟨e, by simp, h1⟩
    · obtain ⟨e2, he2, hc2⟩ := ih h2
      exact ⟨e2, by simp [he2], hc2⟩

/-- C10: when every tip amount is non-negative (missing tips count as zero)
and the hours are present so the totals are numbers, the cash-tip total is
at most the tip total, and totalPayable is at least totalWages plus
totalCommissions plus totalProductCommissions: the cash-tip subtraction can
never push the payable below the non-tip components. -/
theorem cashTips_le_tips (employee : Employee) (w : ℚ)
    (hw : employee.hourly_wage = some w) (entries : List TimeEntry)
    (hh : ∀ e ∈ entries, (e.hours).isSome)
    (ht : ∀ e ∈ entries, ∀ c ∈ e.clients, 0 ≤ orZero c.tip_amount) :
    (summarize (some employee) entries).totalCashTips ≤
      (summarize (some employee) entries).totalTips ∧
    ∀ p wv, (summarize (some employee) entries).totalPayable = some p →
      (summarize (some employee) entries).totalWages = some wv →
      wv + (summarize (some employee) entries).totalCommissions +
        (summarize (some employee) entries).totalProductCommissions ≤ p := by
  have hkey := filter_cash_sum_le (allClients entries) (fun c hc => by
    obtain ⟨e, he, hce⟩ := mem_allClients c entries hc
    exact ht e he c hce)
  rw [summarize_eval employee w hw entries hh]
  constructor
  · exact hkey
  · intro p wv hp hwv
    dsimp only at hp hwv ⊢
    injection hp with hp
    injection hwv with hwv
    subst hp
    subst hwv
    have hkey2 : sumCashTips entries ≤ sumTips entries := hkey
    linarith

theorem cashTips_le_tips_witness :
    (summarize (some ⟨some 10⟩)
      [⟨some 2, [⟨some 30, some 5, true⟩, ⟨some 0, some 7, false⟩],
        [⟨some 4⟩]⟩]).totalCashTips ≤
      (summarize (some ⟨some 10⟩)
        [⟨some 2, [⟨some 30, some 5, true⟩, ⟨some 0, some 7, false⟩],
          [⟨some 4⟩]⟩]).totalTips :=
  (cashTips_le_tips ⟨some 10⟩ 10 rfl
    [⟨some 2, [⟨some 30, some 5, true⟩, ⟨some 0, some 7, false⟩], [⟨some 4⟩]⟩]
    (by decide) (by decide)).1

/-- Invoice row (invoices table columns used by the engine). -/
structure Invoice where
  employee_id : Nat
  pay_period_start : String
  pay_period_end : String
  total_hours : ℚ
  total_wages : ℚ
  total_commissions : ℚ
  total_tips : ℚ
  total_product_commissions : ℚ
  cash_tips_received : ℚ
  total_payable : ℚ
  deriving DecidableEq, Repr

/-- Body of POST /api/submit-invoice (src/server.js line 574). -/
structure SubmitRequest where
  employeeId : Nat
  periodStart : String
  periodEnd : String
  totalHours : ℚ
  totalWages : ℚ
  totalCommissions : ℚ
  totalTips : ℚ
  totalCashTips : ℚ
  totalProductCommissions : ℚ
  totalPayable : ℚ
  deriving DecidableEq, Repr

/-- WHERE clause of the duplicate check (src/server.js lines 577-580):
employee_id = ? AND pay_period_start = ? AND pay_period_end = ?, string
equality on the stored period bounds. -/
def invoiceMatches (eid : Nat) (ps pe : String) (i : Invoice) : Bool :=
  i.employee_id == eid && i.pay_period_start == ps && i.pay_period_end == pe

/-- Idempotent-submission check (the spec name canSubmit): true exactly when
no stored invoice matches the triple. -/
def canSubmit (invoices : List Invoice) (eid : Nat) (ps pe : String) : Bool :=
  !(invoices.any (invoiceMatches eid ps pe))

structure SubmitResult where
  success : Bool
  message : String
  deriving DecidableEq, Repr

/-- Embedding of POST /api/submit-invoice (src/server.js lines 573-640,
identically src/unnamed/part_001 lines 501-553): if an exactly matching
invoice exists, answer success false with the already-submitted message and
leave the store unchanged; otherwise append the new invoice row.  Email
delivery after the insert is outside the store model. -/
def submitInvoice (invoices : List Invoice) (r : SubmitRequest) :
    List Invoice × SubmitResult :=
  if invoices.any (invoiceMatches r.employeeId r.periodStart r.periodEnd) then
    (invoices, ⟨false, "Invoice already submitted for this pay period"⟩)
  else
    (invoices ++ [⟨r.employeeId, r.periodStart, r.periodEnd, r.totalHours,
      r.totalWages, r.totalCommissions, r.totalTips, r.totalProductCommissions,
      r.totalCashTips, r.totalPayable⟩],
     ⟨true, "Invoice submitted"⟩)

/-- C5: the submission check is a pure existence predicate: canSubmit is
false exactly when some stored invoice matches employee id, period start and
period end string-exactly (not by range overlap); when it is false the
submission path creates no invoice and returns a normal negative result,
leaving the store unchanged; otherwise it appends exactly the requested
invoice. -/
theorem canSubmit_spec (invoices : List Invoice) (r : SubmitRequest) :
    (canSubmit invoices r.employeeId r.periodStart r.periodEnd = false ↔
      ∃ i ∈ invoices, i.employee_id = r.employeeId ∧
        i.pay_period_start = r.periodStart ∧ i.pay_period_end = r.periodEnd) ∧
    (canSubmit invoices r.employeeId r.periodStart r.periodEnd = false →
      submitInvoice invoices r =
        (invoices, ⟨false, "Invoice already submitted for this pay period"⟩)) ∧
    (canSubmit invoices r.employeeId r.periodStart r.periodEnd = true →
      (submitInvoice invoices r).2.success = true ∧
      (submitInvoice invoices r).1 =
        invoices ++ [⟨r.employeeId, r.periodStart, r.periodEnd, r.totalHours,
          r.totalWages, r.totalCommissions, r.totalTips, r.totalProductCommissions,
          r.totalCashTips, r.totalPayable⟩]) := by
  refine ⟨?_, ?_, ?_⟩
  · unfold canSubmit invoiceMatches
    simp [List.any_eq_true, and_assoc]
  · intro h
    have hany : invoices.any (invoiceMatches r.employeeId r.periodStart r.periodEnd)
        = true := by
      simpa [canSubmit] using h
    unfold submitInvoice
    rw [if_pos hany]
  · intro h
    have hany : invoices.any (invoiceMatches r.employeeId r.periodStart r.periodEnd)
        = false := by
      simpa [canSubmit] using h
    unfold submitInvoice
    rw [if_neg (by simp [hany])]
    exact ⟨rfl, rfl⟩

theorem canSubmit_spec_witness :
    canSubmit [⟨1, "2026-01-01", "2026-01-15", 0, 0, 0, 0, 0, 0, 0⟩]
      1 "2026-01-01" "2026-01-15" = false ∧
    submitInvoice [⟨1, "2026-01-01", "2026-01-15", 0, 0, 0, 0, 0, 0, 0⟩]
      ⟨1, "2026-01-01", "2026-01-15", 8, 160, 50, 20, 20, 15, 225⟩ =
      ([⟨1, "2026-01-01", "2026-01-15", 0, 0, 0, 0, 0, 0, 0⟩],
        ⟨false, "Invoice already submitted for this pay period"⟩) ∧
    canSubmit [⟨1, "2026-01-01", "2026-01-15", 0, 0, 0, 0, 0, 0, 0⟩]
      1 "2026-01-05" "2026-01-15" = true ∧
    canSubmit [⟨1, "2026-01-01", "2026-01-15", 0, 0, 0, 0, 0, 0, 0⟩]
      2 "2026-01-01" "2026-01-15" = true :=
  ⟨by decide,
   (canSubmit_spec [⟨1, "2026-01-01", "2026-01-15", 0, 0, 0, 0, 0, 0, 0⟩]
      ⟨1, "2026-01-01", "2026-01-15", 8, 160, 50, 20, 20, 15, 225⟩).2.1 (by decide),
   by decide, by decide⟩

/-- Time entry row for the deletion model (time_entries key columns). -/
structure TimeEntryRow where
  id : Nat
  employee_id : Nat
  deriving DecidableEq, Repr

/-- Client entry row for the deletion model. -/
structure ClientRow where
  id : Nat
  time_entry_id : Nat
  deriving DecidableEq, Repr

/-- Product sale row for the deletion model. -/
structure SaleRow where
  id : Nat
  time_entry_id : Nat
  deriving DecidableEq, Repr

/-- Employee row for the deletion model. -/
structure EmployeeRow where
  id : Nat
  deriving DecidableEq, Repr

/-- Database tables touched by the deletion endpoint. -/
structure Store where
  time_entries : List TimeEntryRow
  client_entries : List ClientRow
  product_sales : List SaleRow
  invoices : List Invoice
  employees : List EmployeeRow
  deriving DecidableEq, Repr

/-- DELETE FROM product_sales WHERE time_entry_id = ?
(src/server.js line 425). -/
def deleteSalesFor (s : Store) (id : Nat) : Store :=
  { s with product_sales := s.product_sales.filter (fun r => !(r.time_entry_id == id)) }

/-- DELETE FROM client_entries WHERE time_entry_id = ?
(src/server.js line 426). -/
def deleteClientsFor (s : Store) (id : Nat) : Store :=
  { s with client_entries := s.client_entries.filter (fun r => !(r.time_entry_id == id)) }

/-- DELETE FROM time_entries WHERE id = ? (src/server.js line 427). -/
def deleteEntryRow (s : Store) (id : Nat) : Store :=
  { s with time_entries := s.time_entries.filter (fun r => !(r.id == id)) }

/-- Embedding of DELETE /api/time-entry/:id (src/server.js lines 415-430,
identically src/unnamed/part_001 lines 296-318): verify ownership, then
delete the product sales, then the client entries, then the entry row, in
exactly that order. -/
def deleteTimeEntry (s : Store) (id employeeId : Nat) : Store × Bool :=
  if s.time_entries.any (fun r => r.id == id && r.employee_id == employeeId) then
    (deleteEntryRow (deleteClientsFor (deleteSalesFor s id) id) id, true)
  else (s, false)

/-- C8: deleting an owned time entry removes every product sale and client
entry whose time_entry_id is the entry id and then the entry row itself;
after the two child deletions and before the parent deletion no child row of
the entry remains while the parent row is still present; and every child row
of a different time entry, every other time entry, every invoice and every
employee record is left unchanged. -/
theorem deleteTimeEntry_cascade (s : Store) (id employeeId : Nat)
    (hown : s.time_entries.any (fun r => r.id == id && r.employee_id == employeeId)
      = true) :
    (∀ r ∈ (deleteClientsFor (deleteSalesFor s id) id).client_entries,
      r.time_entry_id ≠ id) ∧
    (∀ r ∈ (deleteClientsFor (deleteSalesFor s id) id).product_sales,
      r.time_entry_id ≠ id) ∧
    (∃ r ∈ (deleteClientsFor (deleteSalesFor s id) id).time_entries, r.id = id) ∧
    (deleteTimeEntry s id employeeId).2 = true ∧
    (deleteTimeEntry s id employeeId).1.time_entries =
      s.time_entries.filter (fun r => !(r.id == id)) ∧
    (deleteTimeEntry s id employeeId).1.client_entries =
      s.client_entries.filter (fun r => !(r.time_entry_id == id)) ∧
    (deleteTimeEntry s id employeeId).1.product_sales =
      s.product_sales.filter (fun r => !(r.time_entry_id == id)) ∧
    (deleteTimeEntry s id employeeId).1.invoices = s.invoices ∧
    (deleteTimeEntry s id employeeId).1.employees = s.employees ∧
    (∀ r ∈ s.time_entries, r.id ≠ id →
      r ∈ (deleteTimeEntry s id employeeId).1.time_entries) ∧
    (∀ r ∈ s.client_entries, r.time_entry_id ≠ id →
      r ∈ (deleteTimeEntry s id employeeId).1.client_entries) ∧
    (∀ r ∈ s.product_sales, r.time_entry_id ≠ id →
      r ∈ (deleteTimeEntry s id employeeId).1.product_sales) := by
  have hdel : deleteTimeEntry s id employeeId =
      (deleteEntryRow (deleteClientsFor (deleteSalesFor s id) id) id, true) := by
    unfold deleteTimeEntry
    rw [if_pos hown]
  obtain ⟨rown, hrmem, hrprop⟩ := List.any_eq_true.mp hown
  have hrid : rown.id = id := by
    have := (Bool.and_eq_true _ _).mp hrprop
    simpa using this.1
  rw [hdel]
  refine ⟨?_, ?_, ⟨rown, ?_, hrid⟩, rfl, rfl, rfl, rfl, rfl, rfl, ?_, ?_, ?_⟩
  · intro r hr
    unfold deleteClientsFor deleteSalesFor at hr
    dsimp only at hr
    rw [List.mem_filter] at hr
    simpa using hr.2
  · intro r hr
    unfold deleteClientsFor deleteSalesFor at hr
    dsimp only at hr
    rw [List.mem_filter] at hr
    simpa using hr.2
  · unfold deleteClientsFor deleteSalesFor
    dsimp only
    exact hrmem
  · intro r hr hne
    dsimp only [deleteEntryRow, deleteClientsFor, deleteSalesFor]
    exact List.mem_filter.mpr ⟨hr, by simpa using hne⟩
  · intro r hr hne
    dsimp only [deleteEntryRow, deleteClientsFor, deleteSalesFor]
    exact List.mem_filter.mpr ⟨hr, by simpa using hne⟩
  · intro r hr hne
    dsimp only [deleteEntryRow, deleteClientsFor, deleteSalesFor]
    exact List.mem_filter.mpr ⟨hr, by simpa using hne⟩

theorem deleteTimeEntry_cascade_witness :
    (deleteTimeEntry
      ⟨[⟨7, 1⟩, ⟨8, 1⟩], [⟨1, 7⟩, ⟨2, 8⟩], [⟨1, 7⟩],
        [⟨1, "2026-01-01", "2026-01-15", 0, 0, 0, 0, 0, 0, 0⟩], [⟨1⟩]⟩ 7 1).2 = true ∧
    (deleteTimeEntry
      ⟨[⟨7, 1⟩, ⟨8, 1⟩], [⟨1, 7⟩, ⟨2, 8⟩], [⟨1, 7⟩],
        [⟨1, "2026-01-01", "2026-01-15", 0, 0, 0, 0, 0, 0, 0⟩], [⟨1⟩]⟩ 7 1).1.invoices =
      [⟨1, "2026-01-01", "2026-01-15", 0, 0, 0, 0, 0, 0, 0⟩] ∧
    (⟨2, 8⟩ : ClientRow) ∈ (deleteTimeEntry
      ⟨[⟨7, 1⟩, ⟨8, 1⟩], [⟨1, 7⟩, ⟨2, 8⟩], [⟨1, 7⟩],
        [⟨1, "2026-01-01", "2026-01-15", 0, 0, 0, 0, 0, 0, 0⟩], [⟨1⟩]⟩ 7 1).1.client_entries :=
  ⟨(deleteTimeEntry_cascade
      ⟨[⟨7, 1⟩, ⟨8, 1⟩], [⟨1, 7⟩, ⟨2, 8⟩], [⟨1, 7⟩],
        [⟨1, "2026-01-01", "2026-01-15", 0, 0, 0, 0, 0, 0, 0⟩], [⟨1⟩]⟩ 7 1
      (by decide)).2.2.2.1,
   (deleteTimeEntry_cascade
      ⟨[⟨7, 1⟩, ⟨8, 1⟩], [⟨1, 7⟩, ⟨2, 8⟩], [⟨1, 7⟩],
        [⟨1, "2026-01-01", "2026-01-15", 0, 0, 0, 0, 0, 0, 0⟩], [⟨1⟩]⟩ 7 1
      (by decide)).2.2.2.2.2.2.2.1,
   (deleteTimeEntry_cascade
      ⟨[⟨7, 1⟩, ⟨8, 1⟩], [⟨1, 7⟩, ⟨2, 8⟩], [⟨1, 7⟩],
        [⟨1, "2026-01-01", "2026-01-15", 0, 0, 0, 0, 0, 0, 0⟩], [⟨1⟩]⟩ 7 1
      (by decide)).2.2.2.2.2.2.2.2.2.2.1 ⟨2, 8⟩ (by decide) (by decide)⟩
